import Mathlib

/-!
Verification of the chat relay server (`server.py`) against its specification.

The server keeps two shared dictionaries, `clients : {username: socket}` and
`groups : {group_name: [username, ...]}`, guarded by one lock, and runs
`handle_client` in one thread per connection.  We embed the per-command body
of `handle_client`, the teardown code of its `finally` block, and the
broadcast helpers as pure functions on an explicit server state.  Python
dictionaries are embedded as association lists with insertion-order
semantics; sockets are identified by natural numbers.
-/

set_option autoImplicit false

namespace ChatServer

/-- Association list with Python-dict semantics: unique keys are maintained
by `insertD`, and `lookupD` finds the first (hence only) binding. -/
abbrev Dict (α : Type) := List (String × α)

/-- `d.get(k)` / `k in d`: first binding of key `k`, if any. -/
def lookupD {α : Type} : Dict α → String → Option α
  | [], _ => none
  | (k, v) :: d, key => if k = key then some v else lookupD d key

/-- `d[k] = v`: replace the value at `k` in place if present, else append. -/
def insertD {α : Type} : Dict α → String → α → Dict α
  | [], k, v => [(k, v)]
  | (k0, v0) :: d, k, v =>
      if k0 = k then (k0, v) :: d else (k0, v0) :: insertD d k v

/-- `d.pop(k, None)`: drop the binding of `k` if present. -/
def popD {α : Type} : Dict α → String → Dict α
  | [], _ => []
  | (k0, v0) :: d, k => if k0 = k then d else (k0, v0) :: popD d k

/-- Python `if x in l: l.remove(x)`: drop the first occurrence of `x`. -/
def removeFirst {α : Type} [DecidableEq α] : List α → α → List α
  | [], _ => []
  | b :: l, a => if b = a then l else b :: removeFirst l a

/-- Occurrence count of an element in a list. -/
def countOcc {α : Type} [DecidableEq α] (a : α) : List α → Nat
  | [] => 0
  | b :: l => (if b = a then 1 else 0) + countOcc a l

/-- Wire-frame payloads, one case per payload shape of the S→C frames
built in `server.py`. -/
inductive Payload where
  | str : String → Payload
  | names : List String → Payload
  | table : Dict (List String) → Payload
  | privMsg : String → String → Payload
  | groupMsg : String → String → String → Payload
  deriving DecidableEq

/-- One JSON frame `{"command": ..., "payload": ...}`. -/
structure Frame where
  command : String
  payload : Payload
  deriving DecidableEq

/-- Shared server state: `clients = {username: socket}` and
`groups = {group_name: [usernames]}` (server.py lines 9-10). -/
structure ServerState where
  clients : Dict Nat
  groups : Dict (List String)
  deriving DecidableEq

/-- Per-connection state of one `handle_client` thread: the connection's
socket and the `username` local variable (`None` until login). -/
structure Session where
  sock : Nat
  username : Option String
  deriving DecidableEq

def errorFrame (s : String) : Frame := ⟨"ERROR", Payload.str s⟩

/-- `{"command": "UPDATE_USER_LIST", "payload": list(clients.keys())}`. -/
def userListFrame (st : ServerState) : Frame :=
  ⟨"UPDATE_USER_LIST", Payload.names (st.clients.map Prod.fst)⟩

/-- `{"command": "UPDATE_GROUP_LIST", "payload": groups.copy()}`. -/
def groupListFrame (st : ServerState) : Frame :=
  ⟨"UPDATE_GROUP_LIST", Payload.table st.groups⟩

def recvPrivateFrame (sender msg : String) : Frame :=
  ⟨"RECV_PRIVATE", Payload.privMsg sender msg⟩

def recvGroupFrame (sender group msg : String) : Frame :=
  ⟨"RECV_GROUP", Payload.groupMsg sender group msg⟩

/-- `broadcast` (server.py lines 32-41): send one frame to every connected
client's socket, in dictionary order.  Outputs are (socket, frame) pairs. -/
def broadcast (st : ServerState) (f : Frame) : List (Nat × Frame) :=
  st.clients.map (fun p => (p.2, f))

/-- `broadcast_user_list` (lines 15-21): snapshot the user list, then
broadcast it. -/
def broadcastUserList (st : ServerState) : List (Nat × Frame) :=
  broadcast st (userListFrame st)

/-- `broadcast_group_list` (lines 23-30): snapshot the groups, then
broadcast them. -/
def broadcastGroupList (st : ServerState) : List (Nat × Frame) :=
  broadcast st (groupListFrame st)

/-- A decoded C→S command, one case per command tag `handle_client`
dispatches on. -/
inductive Command where
  | login : String → Command
  | msgPrivate : String → String → Command
  | createGroup : String → Command
  | joinGroup : String → Command
  | msgGroup : String → String → Command
  deriving DecidableEq

/-- Result of processing one frame in the `while True` loop: the new shared
state, the new per-connection state, the frames written (in order, as
(socket, frame) pairs), and whether the loop continues (`false` = the
`break` on a rejected login). -/
structure StepResult where
  state : ServerState
  session : Session
  outputs : List (Nat × Frame)
  continues : Bool
  deriving DecidableEq

/-- No-op iteration (`if not username: continue`). -/
def skipStep (st : ServerState) (sess : Session) : StepResult :=
  ⟨st, sess, [], true⟩

/-- One iteration of the `handle_client` command loop (server.py lines
64-144), dispatching on the decoded command exactly as the Python
`if`/`elif` chain does.  Note the `LOGIN` branch does not test whether the
session is already authenticated. -/
def step (st : ServerState) (sess : Session) : Command → StepResult
  | Command.login name =>
      if name ≠ "" ∧ lookupD st.clients name = none then
        let st' : ServerState := { st with clients := insertD st.clients name sess.sock }
        { state := st', session := { sess with username := some name },
          outputs := broadcastUserList st' ++ broadcastGroupList st',
          continues := true }
      else
        { state := st, session := sess,
          outputs := [(sess.sock, errorFrame "Username taken or invalid.")],
          continues := false }
  | Command.msgPrivate recipient msgText =>
      match sess.username with
      | none => skipStep st sess
      | some u =>
          match lookupD st.clients recipient with
          | some rsock =>
              ⟨st, sess, [(rsock, recvPrivateFrame u msgText)], true⟩
          | none =>
              ⟨st, sess,
               [(sess.sock, errorFrame ("User " ++ "\x27" ++ recipient ++ "\x27" ++ " is not online."))],
               true⟩
  | Command.createGroup g =>
      match sess.username with
      | none => skipStep st sess
      | some u =>
          let st' : ServerState :=
            if lookupD st.groups g = none then
              { st with groups := insertD st.groups g [u] }
            else st
          ⟨st', sess, broadcastGroupList st', true⟩
  | Command.joinGroup g =>
      match sess.username with
      | none => skipStep st sess
      | some u =>
          let st' : ServerState :=
            match lookupD st.groups g with
            | none => st
            | some ms =>
                if u ∈ ms then st
                else { st with groups := insertD st.groups g (ms ++ [u]) }
          ⟨st', sess, broadcastGroupList st', true⟩
  | Command.msgGroup g msgText =>
      match sess.username with
      | none => skipStep st sess
      | some u =>
          let members := (lookupD st.groups g).getD []
          if u ∈ members then
            ⟨st, sess,
             members.filterMap
               (fun m => (lookupD st.clients m).map (fun s => (s, recvGroupFrame u g msgText))),
             true⟩
          else
            ⟨st, sess, [], true⟩

/-- The `finally` block of `handle_client` (lines 153-167): if the session
had logged in, remove its name from `clients` and from every group's member
list, then broadcast the user list and the group list once each. -/
def teardown (st : ServerState) (username : Option String) :
    ServerState × List (Nat × Frame) :=
  match username with
  | none => (st, [])
  | some u =>
      let st' : ServerState :=
        { clients := popD st.clients u,
          groups := st.groups.map (fun p => (p.1, removeFirst p.2 u)) }
      (st', broadcastUserList st' ++ broadcastGroupList st')

/-- `broadcast` with a fallible transport: `bad s = true` means
`sendall` raises on socket `s`.  The `except` branch (lines 40-41) only
prints, so the returned registry state is the input state unchanged;
deliveries and failures are collected in dictionary order. -/
structure BroadcastResult where
  state : ServerState
  delivered : List (Nat × Frame)
  failed : List Nat
  deriving DecidableEq

def broadcastWithFailures (bad : Nat → Bool) (st : ServerState) (f : Frame) :
    BroadcastResult :=
  { state := st,
    delivered := st.clients.filterMap
      (fun p => if bad p.2 then none else some (p.2, f)),
    failed := st.clients.filterMap
      (fun p => if bad p.2 then some p.2 else none) }

/-- Lock/IO events, for stating the locking discipline of the broadcast
path: `acq`/`rel` bracket a `with data_lock:` block, `mutate` is a registry
mutation, `snapshot` a registry read used to build a broadcast payload, and
`write s` a `sendall` on socket `s`. -/
inductive Event where
  | acq : Event
  | rel : Event
  | mutate : Event
  | snapshot : Event
  | write : Nat → Event
  deriving DecidableEq

/-- Events of `broadcast(msg)` (lines 32-41): the loop over
`clients.values()` runs inside `with data_lock:`. -/
def broadcastTrace (st : ServerState) : List Event :=
  [Event.acq] ++ st.clients.map (fun p => Event.write p.2) ++ [Event.rel]

/-- Events of `broadcast_user_list()` (lines 15-21): the snapshot is taken
in its own `with data_lock:` block, then `broadcast` is called. -/
def broadcastUserListTrace (st : ServerState) : List Event :=
  [Event.acq, Event.snapshot, Event.rel] ++ broadcastTrace st

/-- Events of `broadcast_group_list()` (lines 23-30). -/
def broadcastGroupListTrace (st : ServerState) : List Event :=
  [Event.acq, Event.snapshot, Event.rel] ++ broadcastTrace st

/-- Events of a successful `LOGIN` (lines 75-87): mutation in one
`with data_lock:` block, then `broadcast_user_list()` and
`broadcast_group_list()`; `st` is the post-mutation state. -/
def loginSuccessTrace (st : ServerState) : List Event :=
  [Event.acq, Event.mutate, Event.rel] ++ broadcastUserListTrace st ++
    broadcastGroupListTrace st

/-- Events of `CREATE_GROUP`/`JOIN_GROUP` (lines 111-125): mutation under
the lock, then `broadcast_group_list()`. -/
def groupMutationTrace (st : ServerState) : List Event :=
  [Event.acq, Event.mutate, Event.rel] ++ broadcastGroupListTrace st

/-- Events of the teardown path (lines 153-165): registry cleanup under
the lock, then both list broadcasts. -/
def teardownTrace (st : ServerState) : List Event :=
  [Event.acq, Event.mutate, Event.rel] ++ broadcastUserListTrace st ++
    broadcastGroupListTrace st

/-- Does some `write` event occur while the lock is held?  The first
argument is the current lock depth. -/
def writeUnderLock : Nat → List Event → Bool
  | _, [] => false
  | d, Event.acq :: es => writeUnderLock (d + 1) es
  | d, Event.rel :: es => writeUnderLock (d - 1) es
  | d, Event.write _ :: es => decide (0 < d) || writeUnderLock d es
  | d, Event.mutate :: es => writeUnderLock d es
  | d, Event.snapshot :: es => writeUnderLock d es

/-- After the scan head, does a `rel` occur strictly before the next
`snapshot`? -/
def relBeforeSnap : List Event → Bool
  | [] => false
  | Event.rel :: _ => true
  | Event.snapshot :: _ => false
  | _ :: es => relBeforeSnap es

/-- Is the first `mutate` separated from the following `snapshot` by a
lock release (i.e. are they in different critical sections)? -/
def mutateSnapshotSeparated : List Event → Bool
  | [] => false
  | Event.mutate :: es => relBeforeSnap es
  | _ :: es => mutateSnapshotSeparated es

/-! ### Dictionary and list lemmas -/

theorem lookupD_insertD {α : Type} (d : Dict α) (k k' : String) (v : α) :
    lookupD (insertD d k v) k' = if k' = k then some v else lookupD d k' := by
  induction d with
  | nil => simp [insertD, lookupD, eq_comm]
  | cons p d ih =>
      obtain ⟨k0, v0⟩ := p
      by_cases h0 : k0 = k
      · subst h0
        by_cases h : k' = k0 <;> simp [insertD, lookupD, h, eq_comm]
      · by_cases h : k0 = k'
        · subst h
          simp [insertD, lookupD, h0]
        · simp [insertD, lookupD, h0, h, ih]

theorem lookupD_eq_none_of_not_mem {α : Type} (d : Dict α) (k : String)
    (h : k ∉ d.map Prod.fst) : lookupD d k = none := by
  induction d with
  | nil => rfl
  | cons p d ih =>
      obtain ⟨k0, v0⟩ := p
      simp only [List.map_cons, List.mem_cons] at h
      push_neg at h
      simp [lookupD, Ne.symm h.1, ih h.2]

theorem lookupD_popD_self {α : Type} (d : Dict α) (k : String)
    (h : (d.map Prod.fst).Nodup) : lookupD (popD d k) k = none := by
  induction d with
  | nil => rfl
  | cons p d ih =>
      obtain ⟨k0, v0⟩ := p
      simp only [List.map_cons, List.nodup_cons] at h
      by_cases h0 : k0 = k
      · subst h0
        simpa [popD] using lookupD_eq_none_of_not_mem d k0 h.1
      · simp [popD, lookupD, h0, ih h.2]

theorem mem_of_lookupD {α : Type} (d : Dict α) (k : String) (v : α)
    (h : lookupD d k = some v) : (k, v) ∈ d := by
  induction d with
  | nil => simp [lookupD] at h
  | cons p d ih =>
      obtain ⟨k0, v0⟩ := p
      by_cases h0 : k0 = k
      · subst h0
        simp only [lookupD, if_pos rfl] at h
        simp_all
      · simp only [lookupD, if_neg h0] at h
        simp [ih h]

theorem key_eq_of_snd_nodup {α : Type} (d : Dict α)
    (h : (d.map Prod.snd).Nodup) (k₁ k₂ : String) (v : α)
    (h₁ : (k₁, v) ∈ d) (h₂ : (k₂, v) ∈ d) : k₁ = k₂ := by
  induction d with
  | nil => simp at h₁
  | cons p d ih =>
      simp only [List.map_cons, List.nodup_cons] at h
      rcases List.mem_cons.mp h₁ with e₁ | m₁ <;>
        rcases List.mem_cons.mp h₂ with e₂ | m₂
      · rw [← e₂] at e₁; exact congrArg Prod.fst e₁
      · exact absurd (by simpa [← e₁] using List.mem_map_of_mem Prod.snd m₂) h.1
      · exact absurd (by simpa [← e₂] using List.mem_map_of_mem Prod.snd m₁) h.1
      · exact ih h.2 m₁ m₂

theorem lookupD_inj_of_snd_nodup {α : Type} (d : Dict α)
    (h : (d.map Prod.snd).Nodup) (k₁ k₂ : String) (v : α)
    (h₁ : lookupD d k₁ = some v) (h₂ : lookupD d k₂ = some v) : k₁ = k₂ :=
  key_eq_of_snd_nodup d h k₁ k₂ v (mem_of_lookupD d k₁ v h₁) (mem_of_lookupD d k₂ v h₂)

theorem mem_values_of_lookupD {α : Type} (d : Dict α) (k : String) (v : α)
    (h : lookupD d k = some v) : v ∈ d.map Prod.snd :=
  List.mem_map_of_mem Prod.snd (mem_of_lookupD d k v h)

theorem not_mem_removeFirst {α : Type} [DecidableEq α] (l : List α) (a : α)
    (h : l.Nodup) : a ∉ removeFirst l a := by
  induction l with
  | nil => simp [removeFirst]
  | cons b l ih =>
      rw [List.nodup_cons] at h
      by_cases hb : b = a
      · subst hb; simpa [removeFirst] using h.1
      · simp [removeFirst, hb, ih h.2, Ne.symm hb]

theorem removeFirst_of_not_mem {α : Type} [DecidableEq α] (l : List α) (a : α)
    (h : a ∉ l) : removeFirst l a = l := by
  induction l with
  | nil => rfl
  | cons b l ih =>
      simp only [List.mem_cons] at h
      push_neg at h
      simp [removeFirst, Ne.symm h.1, ih h.2]

theorem popD_of_not_mem {α : Type} (d : Dict α) (k : String)
    (h : lookupD d k = none) : popD d k = d := by
  induction d with
  | nil => rfl
  | cons p d ih =>
      obtain ⟨k0, v0⟩ := p
      by_cases h0 : k0 = k
      · simp [lookupD, h0] at h
      · simp only [lookupD, if_neg h0] at h
        simp [popD, h0, ih h]

theorem countOcc_eq_zero_of_not_mem {α : Type} [DecidableEq α] (a : α)
    (l : List α) (h : a ∉ l) : countOcc a l = 0 := by
  induction l with
  | nil => rfl
  | cons b l ih =>
      simp only [List.mem_cons] at h
      push_neg at h
      simp [countOcc, Ne.symm h.1, ih h.2]

/-! ### Counting lemmas for broadcast and fan-out -/

theorem countOcc_broadcast_self (cs : Dict Nat) (f : Frame) (s : Nat)
    (h : (cs.map Prod.snd).Nodup) (hs : s ∈ cs.map Prod.snd) :
    countOcc (s, f) (cs.map (fun p => (p.2, f))) = 1 := by
  induction cs with
  | nil => simp at hs
  | cons p cs ih =>
      simp only [List.map_cons, List.nodup_cons] at h
      simp only [List.map_cons, List.mem_cons] at hs
      by_cases hp : p.2 = s
      · have hnot : (s, f) ∉ cs.map (fun q => (q.2, f)) := by
          intro hm
          obtain ⟨q, hq, he⟩ := List.mem_map.mp hm
          have : q.2 = s := congrArg Prod.fst he
          exact h.1 (by rw [hp]; exact this ▸ List.mem_map_of_mem Prod.snd hq)
        simp [List.map_cons, countOcc, hp, countOcc_eq_zero_of_not_mem _ _ hnot]
      · rcases hs with hs | hs
        · exact absurd hs.symm hp
        · have hne : ¬((p.2, f) = (s, f)) := by simp [hp]
          simp [List.map_cons, countOcc, hne, ih h.2 hs]

theorem countOcc_broadcast_of_ne (cs : Dict Nat) (f f' : Frame) (s : Nat)
    (hne : f' ≠ f) : countOcc (s, f') (cs.map (fun p => (p.2, f))) = 0 := by
  apply countOcc_eq_zero_of_not_mem
  intro hm
  obtain ⟨q, _, he⟩ := List.mem_map.mp hm
  exact hne (congrArg Prod.snd he).symm

/-- The `MSG_GROUP` fan-out list (server.py lines 140-144) as a function of
the member list. -/
def fanout (cs : Dict Nat) (f : Frame) (ms : List String) : List (Nat × Frame) :=
  ms.filterMap (fun m => (lookupD cs m).map (fun s => (s, f)))

theorem countOcc_fanout_zero (cs : Dict Nat) (f : Frame) (ms : List String)
    (m : String) (s : Nat) (hval : (cs.map Prod.snd).Nodup)
    (hm : m ∉ ms) (hs : lookupD cs m = some s) :
    countOcc (s, f) (fanout cs f ms) = 0 := by
  induction ms with
  | nil => rfl
  | cons x ms ih =>
      simp only [List.mem_cons] at hm
      push_neg at hm
      rcases hx : lookupD cs x with _ | sx
      · simpa [fanout, List.filterMap_cons, hx] using ih hm.2
      · have hne : ¬((sx, f) = (s, f)) := by
          intro he
          have hsx : sx = s := congrArg Prod.fst he
          exact hm.1 (lookupD_inj_of_snd_nodup cs hval m x s hs (hsx ▸ hx))
        simpa [fanout, List.filterMap_cons, hx, countOcc, hne] using ih hm.2

theorem countOcc_fanout_one (cs : Dict Nat) (f : Frame) (ms : List String)
    (m : String) (s : Nat) (hval : (cs.map Prod.snd).Nodup) (hnd : ms.Nodup)
    (hm : m ∈ ms) (hs : lookupD cs m = some s) :
    countOcc (s, f) (fanout cs f ms) = 1 := by
  induction ms with
  | nil => simp at hm
  | cons x ms ih =>
      rw [List.nodup_cons] at hnd
      rcases List.mem_cons.mp hm with he | hmem
      · subst he
        have hz := countOcc_fanout_zero cs f ms m s hval hnd.1 hs
        simp only [fanout] at hz ⊢
        simp [List.filterMap_cons, hs, countOcc, hz]
      · have hmx : m ≠ x := fun he => hnd.1 (he ▸ hmem)
        rcases hx : lookupD cs x with _ | sx
        · simpa [fanout, List.filterMap_cons, hx] using ih hnd.2 hmem
        · have hne : ¬((sx, f) = (s, f)) := by
            intro he
            have hsx : sx = s := congrArg Prod.fst he
            exact hmx (lookupD_inj_of_snd_nodup cs hval m x s hs (hsx ▸ hx))
          simpa [fanout, List.filterMap_cons, hx, countOcc, hne] using ih hnd.2 hmem

theorem countOcc_delivered_zero (bad : Nat → Bool) (cs : Dict Nat) (f f' : Frame)
    (s : Nat) (hs : s ∉ cs.map Prod.snd) :
    countOcc (s, f')
      (cs.filterMap (fun p => if bad p.2 then none else some (p.2, f))) = 0 := by
  apply countOcc_eq_zero_of_not_mem
  intro hm
  obtain ⟨q, hq, he⟩ := List.mem_filterMap.mp hm
  by_cases hb : bad q.2 = true
  · rw [if_pos hb] at he
    exact Option.noConfusion he
  · rw [if_neg hb] at he
    have hqs : q.2 = s := congrArg Prod.fst (Option.some.inj he)
    exact hs (hqs ▸ List.mem_map_of_mem Prod.snd hq)

theorem countOcc_delivered_one (bad : Nat → Bool) (cs : Dict Nat) (f : Frame)
    (s : Nat) (hval : (cs.map Prod.snd).Nodup) (hs : s ∈ cs.map Prod.snd)
    (hb : bad s = false) :
    countOcc (s, f)
      (cs.filterMap (fun p => if bad p.2 then none else some (p.2, f))) = 1 := by
  induction cs with
  | nil => simp at hs
  | cons p cs ih =>
      simp only [List.map_cons, List.nodup_cons] at hval
      simp only [List.map_cons, List.mem_cons] at hs
      by_cases hp : p.2 = s
      · rw [List.filterMap_cons, hp, hb]
        simp only [Bool.false_eq_true, if_false]
        simpa [countOcc] using
          countOcc_delivered_zero bad cs f f s (hp ▸ hval.1)
      · rcases hs with hs | hs
        · exact absurd hs.symm hp
        · rw [List.filterMap_cons]
          by_cases hpb : bad p.2 = true
          · simpa [hpb] using ih hval.2 hs
          · have hne : ¬((p.2, f) = (s, f)) := by simp [hp]
            simpa [hpb, countOcc, hne] using ih hval.2 hs

theorem not_mem_delivered_of_bad (bad : Nat → Bool) (cs : Dict Nat) (f f' : Frame)
    (s : Nat) (hb : bad s = true) :
    (s, f') ∉ cs.filterMap (fun p => if bad p.2 then none else some (p.2, f)) := by
  intro hm
  obtain ⟨q, _, he⟩ := List.mem_filterMap.mp hm
  by_cases hqb : bad q.2 = true
  · rw [if_pos hqb] at he
    exact Option.noConfusion he
  · rw [if_neg hqb] at he
    have hqs : q.2 = s := congrArg Prod.fst (Option.some.inj he)
    rw [hqs, hb] at hqb
    exact hqb rfl

/-! ### Claim theorems -/

/-- Claim C1: for an unauthenticated connection, `LOGIN` with name `n`
succeeds and records `n ↦ socket` iff `n` is non-empty and not already a
key of `clients`; on failure the server sends exactly one `ERROR` frame to
that connection, terminates only that connection, leaves the registry
unchanged (so a session already registered under `n` stays registered), and
the ensuing teardown with `username = None` changes nothing. -/
theorem login_unauthenticated (st : ServerState) (sess : Session) (n : String)
    (hu : sess.username = none) :
    ((n ≠ "" ∧ lookupD st.clients n = none) →
        (step st sess (Command.login n)).session.username = some n ∧
        lookupD (step st sess (Command.login n)).state.clients n = some sess.sock ∧
        (step st sess (Command.login n)).continues = true) ∧
    (¬(n ≠ "" ∧ lookupD st.clients n = none) →
        (step st sess (Command.login n)).outputs =
          [(sess.sock, errorFrame "Username taken or invalid.")] ∧
        (step st sess (Command.login n)).continues = false ∧
        (step st sess (Command.login n)).state = st ∧
        teardown (step st sess (Command.login n)).state
          (step st sess (Command.login n)).session.username = (st, [])) := by
  constructor
  · intro h
    simp [step, h, lookupD_insertD]
  · intro h
    simp [step, h, hu, teardown]

theorem login_unauthenticated_witness :
    (Session.mk 2 none).username = none ∧
    ((("bob" : String) ≠ "" ∧
        lookupD (ServerState.mk [("alice", 1)] []).clients "bob" = none) →
      (step ⟨[("alice", 1)], []⟩ ⟨2, none⟩ (Command.login "bob")).session.username
          = some "bob" ∧
      lookupD (step ⟨[("alice", 1)], []⟩ ⟨2, none⟩
          (Command.login "bob")).state.clients "bob" = some 2 ∧
      (step ⟨[("alice", 1)], []⟩ ⟨2, none⟩ (Command.login "bob")).continues = true) ∧
    (¬(("bob" : String) ≠ "" ∧
        lookupD (ServerState.mk [("alice", 1)] []).clients "bob" = none) →
      (step ⟨[("alice", 1)], []⟩ ⟨2, none⟩ (Command.login "bob")).outputs =
        [(2, errorFrame "Username taken or invalid.")] ∧
      (step ⟨[("alice", 1)], []⟩ ⟨2, none⟩ (Command.login "bob")).continues = false ∧
      (step ⟨[("alice", 1)], []⟩ ⟨2, none⟩ (Command.login "bob")).state = ⟨[("alice", 1)], []⟩ ∧
      teardown (step ⟨[("alice", 1)], []⟩ ⟨2, none⟩ (Command.login "bob")).state
        (step ⟨[("alice", 1)], []⟩ ⟨2, none⟩ (Command.login "bob")).session.username
        = (⟨[("alice", 1)], []⟩, [])) :=
  ⟨rfl, login_unauthenticated ⟨[("alice", 1)], []⟩ ⟨2, none⟩ "bob" rfl⟩

/-- Claim C8: an authenticated sender's `MSG_PRIVATE` to recipient `r` is
delivered as one `RECV_PRIVATE` frame to `r`'s registered socket and to no
other session when `r` is online; otherwise the sender gets exactly the
`ERROR` frame "User 'r' is not online." and the connection continues. -/
theorem msg_private_delivery (st : ServerState) (sess : Session)
    (u recipient text : String) (hu : sess.username = some u) :
    (∀ rs, lookupD st.clients recipient = some rs →
        (step st sess (Command.msgPrivate recipient text)).outputs =
          [(rs, recvPrivateFrame u text)] ∧
        (step st sess (Command.msgPrivate recipient text)).continues = true ∧
        (step st sess (Command.msgPrivate recipient text)).state = st) ∧
    (lookupD st.clients recipient = none →
        (step st sess (Command.msgPrivate recipient text)).outputs =
          [(sess.sock,
            errorFrame ("User " ++ "\x27" ++ recipient ++ "\x27" ++ " is not online."))] ∧
        (step st sess (Command.msgPrivate recipient text)).continues = true ∧
        (step st sess (Command.msgPrivate recipient text)).state = st) := by
  constructor
  · intro rs hrs
    simp [step, hu, hrs]
  · intro hrs
    simp [step, hu, hrs]

theorem msg_private_delivery_witness :
    (Session.mk 1 (some "alice")).username = some "alice" ∧
    ((∀ rs, lookupD (ServerState.mk [("alice", 1), ("bob", 2)] []).clients "bob" = some rs →
        (step ⟨[("alice", 1), ("bob", 2)], []⟩ ⟨1, some "alice"⟩
            (Command.msgPrivate "bob" "hi")).outputs =
          [(rs, recvPrivateFrame "alice" "hi")] ∧
        (step ⟨[("alice", 1), ("bob", 2)], []⟩ ⟨1, some "alice"⟩
            (Command.msgPrivate "bob" "hi")).continues = true ∧
        (step ⟨[("alice", 1), ("bob", 2)], []⟩ ⟨1, some "alice"⟩
            (Command.msgPrivate "bob" "hi")).state = ⟨[("alice", 1), ("bob", 2)], []⟩) ∧
      (lookupD (ServerState.mk [("alice", 1), ("bob", 2)] []).clients "bob" = none →
        (step ⟨[("alice", 1), ("bob", 2)], []⟩ ⟨1, some "alice"⟩
            (Command.msgPrivate "bob" "hi")).outputs =
          [(1, errorFrame ("User " ++ "\x27" ++ "bob" ++ "\x27" ++ " is not online."))] ∧
        (step ⟨[("alice", 1), ("bob", 2)], []⟩ ⟨1, some "alice"⟩
            (Command.msgPrivate "bob" "hi")).continues = true ∧
        (step ⟨[("alice", 1), ("bob", 2)], []⟩ ⟨1, some "alice"⟩
            (Command.msgPrivate "bob" "hi")).state = ⟨[("alice", 1), ("bob", 2)], []⟩)) :=
  ⟨rfl, msg_private_delivery ⟨[("alice", 1), ("bob", 2)], []⟩ ⟨1, some "alice"⟩
    "alice" "bob" "hi" rfl⟩

/-- Claim C4 (counterexample): an authenticated non-member sending
`MSG_GROUP` receives no `ERROR` frame — the server's output is empty, so
the failure is not reported to the sending client as the claim states. -/
theorem msg_group_nonmember_counterexample :
    (step ⟨[("alice", 1), ("bob", 2)], [("Tech", ["bob"])]⟩ ⟨1, some "alice"⟩
      (Command.msgGroup "Tech" "hi")).outputs = [] := by
  decide

/-- Claim C4 (amended): an authenticated sender who is not a member of the
group (or names a nonexistent group) is silently ignored: no frame is sent
to anyone, the state is unchanged, and the connection continues. -/
theorem msg_group_nonmember_silent (st : ServerState) (sess : Session)
    (u g text : String) (hu : sess.username = some u)
    (hnm : u ∉ (lookupD st.groups g).getD []) :
    (step st sess (Command.msgGroup g text)).outputs = [] ∧
    (step st sess (Command.msgGroup g text)).state = st ∧
    (step st sess (Command.msgGroup g text)).continues = true := by
  simp [step, hu, hnm]

theorem msg_group_nonmember_silent_witness :
    (Session.mk 1 (some "alice")).username = some "alice" ∧
    ("alice" : String) ∉ (lookupD (ServerState.mk [("alice", 1), ("bob", 2)]
        [("Tech", ["bob"])]).groups "Tech").getD [] ∧
    ((step ⟨[("alice", 1), ("bob", 2)], [("Tech", ["bob"])]⟩ ⟨1, some "alice"⟩
        (Command.msgGroup "Tech" "hi")).outputs = [] ∧
      (step ⟨[("alice", 1), ("bob", 2)], [("Tech", ["bob"])]⟩ ⟨1, some "alice"⟩
        (Command.msgGroup "Tech" "hi")).state = ⟨[("alice", 1), ("bob", 2)], [("Tech", ["bob"])]⟩ ∧
      (step ⟨[("alice", 1), ("bob", 2)], [("Tech", ["bob"])]⟩ ⟨1, some "alice"⟩
        (Command.msgGroup "Tech" "hi")).continues = true) :=
  ⟨rfl, by decide,
    msg_group_nonmember_silent ⟨[("alice", 1), ("bob", 2)], [("Tech", ["bob"])]⟩
      ⟨1, some "alice"⟩ "alice" "Tech" "hi" rfl (by decide)⟩

/-- Claim C5 (counterexample): a session already authenticated as "alice"
that sends `LOGIN "alicia"` is not ignored: its name changes, the online
map gains a second entry, and socket 1 is now registered under two names. -/
theorem relogin_counterexample :
    (step ⟨[("alice", 1)], []⟩ ⟨1, some "alice"⟩
        (Command.login "alicia")).session.username = some "alicia" ∧
    lookupD (step ⟨[("alice", 1)], []⟩ ⟨1, some "alice"⟩
        (Command.login "alicia")).state.clients "alice" = some 1 ∧
    lookupD (step ⟨[("alice", 1)], []⟩ ⟨1, some "alice"⟩
        (Command.login "alicia")).state.clients "alicia" = some 1 ∧
    (step ⟨[("alice", 1)], []⟩ ⟨1, some "alice"⟩
        (Command.login "alicia")).state ≠ (⟨[("alice", 1)], []⟩ : ServerState) := by
  decide

/-- Claim C5 (amended): a `LOGIN` sent while authenticated is processed
like an initial login: with a non-empty untaken name it re-registers the
session under the new name while the old entry remains in the online map
(so the socket appears under two names); with an empty or taken name it
sends one `ERROR` frame and terminates the connection. -/
theorem relogin_behaves_like_login (st : ServerState) (sess : Session)
    (u n : String) (_hu : sess.username = some u)
    (hold : lookupD st.clients u = some sess.sock) :
    ((n ≠ "" ∧ lookupD st.clients n = none) →
        (step st sess (Command.login n)).session.username = some n ∧
        lookupD (step st sess (Command.login n)).state.clients n = some sess.sock ∧
        lookupD (step st sess (Command.login n)).state.clients u = some sess.sock ∧
        (step st sess (Command.login n)).continues = true) ∧
    (¬(n ≠ "" ∧ lookupD st.clients n = none) →
        (step st sess (Command.login n)).outputs =
          [(sess.sock, errorFrame "Username taken or invalid.")] ∧
        (step st sess (Command.login n)).continues = false ∧
        (step st sess (Command.login n)).state = st) := by
  constructor
  · intro h
    have hne : u ≠ n := fun he => by rw [he, h.2] at hold; exact Option.noConfusion hold
    simp [step, h, lookupD_insertD, hne, hold]
  · intro h
    simp [step, h]

theorem relogin_behaves_like_login_witness :
    (Session.mk 1 (some "alice")).username = some "alice" ∧
    lookupD (ServerState.mk [("alice", 1)] []).clients "alice" = some 1 ∧
    (((("alicia" : String) ≠ "" ∧
          lookupD (ServerState.mk [("alice", 1)] []).clients "alicia" = none) →
        (step ⟨[("alice", 1)], []⟩ ⟨1, some "alice"⟩
            (Command.login "alicia")).session.username = some "alicia" ∧
        lookupD (step ⟨[("alice", 1)], []⟩ ⟨1, some "alice"⟩
            (Command.login "alicia")).state.clients "alicia" = some 1 ∧
        lookupD (step ⟨[("alice", 1)], []⟩ ⟨1, some "alice"⟩
            (Command.login "alicia")).state.clients "alice" = some 1 ∧
        (step ⟨[("alice", 1)], []⟩ ⟨1, some "alice"⟩
            (Command.login "alicia")).continues = true) ∧
      (¬(("alicia" : String) ≠ "" ∧
          lookupD (ServerState.mk [("alice", 1)] []).clients "alicia" = none) →
        (step ⟨[("alice", 1)], []⟩ ⟨1, some "alice"⟩
            (Command.login "alicia")).outputs =
          [(1, errorFrame "Username taken or invalid.")] ∧
        (step ⟨[("alice", 1)], []⟩ ⟨1, some "alice"⟩
            (Command.login "alicia")).continues = false ∧
        (step ⟨[("alice", 1)], []⟩ ⟨1, some "alice"⟩
            (Command.login "alicia")).state = ⟨[("alice", 1)], []⟩)) :=
  ⟨rfl, by decide,
    relogin_behaves_like_login ⟨[("alice", 1)], []⟩ ⟨1, some "alice"⟩
      "alice" "alicia" rfl (by decide)⟩

/-- The `MSG_GROUP` branch for an authenticated member reduces to a
fan-out over the group's member list. -/
theorem step_msgGroup_member (st : ServerState) (sess : Session)
    (u g text : String) (hu : sess.username = some u)
    (hmem : u ∈ (lookupD st.groups g).getD []) :
    step st sess (Command.msgGroup g text) =
      ⟨st, sess,
        fanout st.clients (recvGroupFrame u g text) ((lookupD st.groups g).getD []),
        true⟩ := by
  simp [step, hu, hmem, fanout]

/-- Claim C3 (counterexample): "alice", an online member of "Tech", sends a
group message and the server sends the resulting `RECV_GROUP` frame back to
alice's own socket — the server does echo to the sender. -/
theorem msg_group_echo_counterexample :
    (1, recvGroupFrame "alice" "Tech" "hi") ∈
      (step ⟨[("alice", 1), ("bob", 2)], [("Tech", ["alice", "bob"])]⟩
        ⟨1, some "alice"⟩ (Command.msgGroup "Tech" "hi")).outputs := by
  decide

/-- Claim C3 (amended): the server always echoes a group message back to
the sender: whenever the authenticated sender is a member of the group and
online, the sender's own socket receives the `RECV_GROUP` frame via the
server round-trip. -/
theorem msg_group_sender_receives (st : ServerState) (sess : Session)
    (u g text : String) (s : Nat) (hu : sess.username = some u)
    (hmem : u ∈ (lookupD st.groups g).getD [])
    (hs : lookupD st.clients u = some s) :
    (s, recvGroupFrame u g text) ∈ (step st sess (Command.msgGroup g text)).outputs := by
  rw [step_msgGroup_member st sess u g text hu hmem]
  exact List.mem_filterMap.mpr ⟨u, hmem, by simp [hs]⟩

theorem msg_group_sender_receives_witness :
    (Session.mk 1 (some "alice")).username = some "alice" ∧
    ("alice" : String) ∈ (lookupD (ServerState.mk [("alice", 1), ("bob", 2)]
        [("Tech", ["alice", "bob"])]).groups "Tech").getD [] ∧
    lookupD (ServerState.mk [("alice", 1), ("bob", 2)]
        [("Tech", ["alice", "bob"])]).clients "alice" = some 1 ∧
    (1, recvGroupFrame "alice" "Tech" "hi") ∈
      (step ⟨[("alice", 1), ("bob", 2)], [("Tech", ["alice", "bob"])]⟩
        ⟨1, some "alice"⟩ (Command.msgGroup "Tech" "hi")).outputs :=
  ⟨rfl, by decide, by decide,
    msg_group_sender_receives ⟨[("alice", 1), ("bob", 2)], [("Tech", ["alice", "bob"])]⟩
      ⟨1, some "alice"⟩ "alice" "Tech" "hi" 1 rfl (by decide) (by decide)⟩

/-- Claim C2: a `MSG_GROUP` from an authenticated member is delivered as a
`RECV_GROUP` frame exactly once to the socket of every member currently in
the online map, every output goes to some online member's socket (so no
non-member session receives anything), offline members simply contribute
nothing, no error is produced, and the state is unchanged with the
connection continuing. -/
theorem msg_group_fanout (st : ServerState) (sess : Session) (u g text : String)
    (hu : sess.username = some u)
    (hmem : u ∈ (lookupD st.groups g).getD [])
    (hnd : ((lookupD st.groups g).getD []).Nodup)
    (hval : (st.clients.map Prod.snd).Nodup) :
    (∀ m ∈ (lookupD st.groups g).getD [], ∀ s, lookupD st.clients m = some s →
        countOcc (s, recvGroupFrame u g text)
          (step st sess (Command.msgGroup g text)).outputs = 1) ∧
    (∀ s f, (s, f) ∈ (step st sess (Command.msgGroup g text)).outputs →
        f = recvGroupFrame u g text ∧
        ∃ m ∈ (lookupD st.groups g).getD [], lookupD st.clients m = some s) ∧
    (step st sess (Command.msgGroup g text)).state = st ∧
    (step st sess (Command.msgGroup g text)).continues = true := by
  rw [step_msgGroup_member st sess u g text hu hmem]
  refine ⟨?_, ?_, rfl, rfl⟩
  · intro m hm s hs
    exact countOcc_fanout_one st.clients _ _ m s hval hnd hm hs
  · intro s f hf
    obtain ⟨m, hm, he⟩ := List.mem_filterMap.mp hf
    rcases hx : lookupD st.clients m with _ | sm
    · rw [hx] at he
      exact Option.noConfusion he
    · rw [hx] at he
      simp only [Option.map_some'] at he
      have hsm : sm = s := congrArg Prod.fst (Option.some.inj he)
      have hfr : recvGroupFrame u g text = f := congrArg Prod.snd (Option.some.inj he)
      exact ⟨hfr.symm, m, hm, hsm ▸ hx⟩

theorem msg_group_fanout_witness :
    (Session.mk 1 (some "alice")).username = some "alice" ∧
    ("alice" : String) ∈ (lookupD (ServerState.mk [("alice", 1), ("bob", 2), ("carol", 3)]
        [("Tech", ["alice", "bob", "dave"])]).groups "Tech").getD [] ∧
    ((lookupD (ServerState.mk [("alice", 1), ("bob", 2), ("carol", 3)]
        [("Tech", ["alice", "bob", "dave"])]).groups "Tech").getD []).Nodup ∧
    ((ServerState.mk [("alice", 1), ("bob", 2), ("carol", 3)]
        [("Tech", ["alice", "bob", "dave"])]).clients.map Prod.snd).Nodup ∧
    ((∀ m ∈ (lookupD (ServerState.mk [("alice", 1), ("bob", 2), ("carol", 3)]
          [("Tech", ["alice", "bob", "dave"])]).groups "Tech").getD [],
        ∀ s, lookupD (ServerState.mk [("alice", 1), ("bob", 2), ("carol", 3)]
            [("Tech", ["alice", "bob", "dave"])]).clients m = some s →
          countOcc (s, recvGroupFrame "alice" "Tech" "hi")
            (step ⟨[("alice", 1), ("bob", 2), ("carol", 3)], [("Tech", ["alice", "bob", "dave"])]⟩
              ⟨1, some "alice"⟩ (Command.msgGroup "Tech" "hi")).outputs = 1) ∧
      (∀ s f, (s, f) ∈ (step ⟨[("alice", 1), ("bob", 2), ("carol", 3)],
            [("Tech", ["alice", "bob", "dave"])]⟩
            ⟨1, some "alice"⟩ (Command.msgGroup "Tech" "hi")).outputs →
          f = recvGroupFrame "alice" "Tech" "hi" ∧
          ∃ m ∈ (lookupD (ServerState.mk [("alice", 1), ("bob", 2), ("carol", 3)]
              [("Tech", ["alice", "bob", "dave"])]).groups "Tech").getD [],
            lookupD (ServerState.mk [("alice", 1), ("bob", 2), ("carol", 3)]
              [("Tech", ["alice", "bob", "dave"])]).clients m = some s) ∧
      (step ⟨[("alice", 1), ("bob", 2), ("carol", 3)], [("Tech", ["alice", "bob", "dave"])]⟩
          ⟨1, some "alice"⟩ (Command.msgGroup "Tech" "hi")).state =
        ⟨[("alice", 1), ("bob", 2), ("carol", 3)], [("Tech", ["alice", "bob", "dave"])]⟩ ∧
      (step ⟨[("alice", 1), ("bob", 2), ("carol", 3)], [("Tech", ["alice", "bob", "dave"])]⟩
          ⟨1, some "alice"⟩ (Command.msgGroup "Tech" "hi")).continues = true) :=
  ⟨rfl, by decide, by decide, by decide,
    msg_group_fanout ⟨[("alice", 1), ("bob", 2), ("carol", 3)],
        [("Tech", ["alice", "bob", "dave"])]⟩
      ⟨1, some "alice"⟩ "alice" "Tech" "hi" rfl (by decide) (by decide) (by decide)⟩

theorem countOcc_append {α : Type} [DecidableEq α] (a : α) (l₁ l₂ : List α) :
    countOcc a (l₁ ++ l₂) = countOcc a l₁ + countOcc a l₂ := by
  induction l₁ with
  | nil => simp [countOcc]
  | cons b l ih => simp [countOcc, ih]; omega

theorem popD_sublist {α : Type} (d : Dict α) (k : String) : (popD d k).Sublist d := by
  induction d with
  | nil => simp [popD]
  | cons p d ih =>
      obtain ⟨k0, v0⟩ := p
      by_cases h : k0 = k
      · simp only [popD, if_pos h]
        exact List.sublist_cons_self (k0, v0) d
      · simpa [popD, h] using ih.cons₂ (k0, v0)

theorem userListFrame_ne_groupListFrame (st st' : ServerState) :
    userListFrame st ≠ groupListFrame st' := by
  simp [userListFrame, groupListFrame]

/-- Claim C6: teardown of an authenticated session removes its name from
the online map and from every group's member list (removal where the name
is absent being a no-op), and is followed by exactly one round of user-list
and group-list broadcasts: each remaining online client receives the
post-teardown user-list frame exactly once and the post-teardown group-list
frame exactly once. -/
theorem teardown_cleanup (st : ServerState) (u : String)
    (hkeys : (st.clients.map Prod.fst).Nodup)
    (hval : (st.clients.map Prod.snd).Nodup)
    (hnd : ∀ p ∈ st.groups, (p.2 : List String).Nodup) :
    lookupD (teardown st (some u)).1.clients u = none ∧
    (∀ p ∈ (teardown st (some u)).1.groups, u ∉ p.2) ∧
    (lookupD st.clients u = none → (teardown st (some u)).1.clients = st.clients) ∧
    (∀ p ∈ st.groups, u ∉ p.2 → removeFirst p.2 u = p.2) ∧
    (∀ n s, lookupD (teardown st (some u)).1.clients n = some s →
        countOcc (s, userListFrame (teardown st (some u)).1)
            (teardown st (some u)).2 = 1 ∧
        countOcc (s, groupListFrame (teardown st (some u)).1)
            (teardown st (some u)).2 = 1) ∧
    teardown st none = (st, []) := by
  have hval' : (((teardown st (some u)).1.clients).map Prod.snd).Nodup := by
    simpa [teardown] using hval.sublist ((popD_sublist st.clients u).map Prod.snd)
  refine ⟨lookupD_popD_self st.clients u hkeys, ?_, ?_, ?_, ?_, rfl⟩
  · intro p hp
    simp only [teardown, List.mem_map] at hp
    obtain ⟨q, hq, he⟩ := hp
    rw [← he]
    exact not_mem_removeFirst q.2 u (hnd q hq)
  · intro h
    simp [teardown, popD_of_not_mem st.clients u h]
  · intro p _ hp
    exact removeFirst_of_not_mem p.2 u hp
  · intro n s hn
    have hs : s ∈ ((teardown st (some u)).1.clients).map Prod.snd :=
      mem_values_of_lookupD _ n s hn
    constructor
    · rw [show (teardown st (some u)).2 =
          broadcastUserList (teardown st (some u)).1 ++
            broadcastGroupList (teardown st (some u)).1 from rfl,
        countOcc_append]
      rw [broadcastUserList, broadcast,
        countOcc_broadcast_self _ _ s hval' hs,
        broadcastGroupList, broadcast,
        countOcc_broadcast_of_ne _ _ _ s (userListFrame_ne_groupListFrame _ _)]
    · rw [show (teardown st (some u)).2 =
          broadcastUserList (teardown st (some u)).1 ++
            broadcastGroupList (teardown st (some u)).1 from rfl,
        countOcc_append]
      rw [broadcastGroupList, broadcast,
        countOcc_broadcast_self _ _ s hval' hs,
        broadcastUserList, broadcast,
        countOcc_broadcast_of_ne _ _ _ s
          (Ne.symm (userListFrame_ne_groupListFrame _ _))]

theorem teardown_cleanup_witness :
    ((ServerState.mk [("alice", 1), ("bob", 2)]
        [("Tech", ["alice", "bob"]), ("Games", ["bob"])]).clients.map Prod.fst).Nodup ∧
    ((ServerState.mk [("alice", 1), ("bob", 2)]
        [("Tech", ["alice", "bob"]), ("Games", ["bob"])]).clients.map Prod.snd).Nodup ∧
    (∀ p ∈ (ServerState.mk [("alice", 1), ("bob", 2)]
        [("Tech", ["alice", "bob"]), ("Games", ["bob"])]).groups,
      (p.2 : List String).Nodup) ∧
    (lookupD (teardown ⟨[("alice", 1), ("bob", 2)],
        [("Tech", ["alice", "bob"]), ("Games", ["bob"])]⟩ (some "alice")).1.clients "alice"
        = none ∧
      (∀ p ∈ (teardown ⟨[("alice", 1), ("bob", 2)],
          [("Tech", ["alice", "bob"]), ("Games", ["bob"])]⟩ (some "alice")).1.groups,
        "alice" ∉ p.2) ∧
      (lookupD (ServerState.mk [("alice", 1), ("bob", 2)]
          [("Tech", ["alice", "bob"]), ("Games", ["bob"])]).clients "alice" = none →
        (teardown ⟨[("alice", 1), ("bob", 2)],
          [("Tech", ["alice", "bob"]), ("Games", ["bob"])]⟩ (some "alice")).1.clients =
          (ServerState.mk [("alice", 1), ("bob", 2)]
            [("Tech", ["alice", "bob"]), ("Games", ["bob"])]).clients) ∧
      (∀ p ∈ (ServerState.mk [("alice", 1), ("bob", 2)]
          [("Tech", ["alice", "bob"]), ("Games", ["bob"])]).groups,
        "alice" ∉ p.2 → removeFirst p.2 "alice" = p.2) ∧
      (∀ n s, lookupD (teardown ⟨[("alice", 1), ("bob", 2)],
            [("Tech", ["alice", "bob"]), ("Games", ["bob"])]⟩ (some "alice")).1.clients n
            = some s →
        countOcc (s, userListFrame (teardown ⟨[("alice", 1), ("bob", 2)],
              [("Tech", ["alice", "bob"]), ("Games", ["bob"])]⟩ (some "alice")).1)
            (teardown ⟨[("alice", 1), ("bob", 2)],
              [("Tech", ["alice", "bob"]), ("Games", ["bob"])]⟩ (some "alice")).2 = 1 ∧
        countOcc (s, groupListFrame (teardown ⟨[("alice", 1), ("bob", 2)],
              [("Tech", ["alice", "bob"]), ("Games", ["bob"])]⟩ (some "alice")).1)
            (teardown ⟨[("alice", 1), ("bob", 2)],
              [("Tech", ["alice", "bob"]), ("Games", ["bob"])]⟩ (some "alice")).2 = 1) ∧
      teardown ⟨[("alice", 1), ("bob", 2)],
        [("Tech", ["alice", "bob"]), ("Games", ["bob"])]⟩ none =
        (⟨[("alice", 1), ("bob", 2)], [("Tech", ["alice", "bob"]), ("Games", ["bob"])]⟩, [])) :=
  ⟨by decide, by decide, by decide,
    teardown_cleanup ⟨[("alice", 1), ("bob", 2)],
        [("Tech", ["alice", "bob"]), ("Games", ["bob"])]⟩ "alice"
      (by decide) (by decide) (by decide)⟩

/-- Claim C7 (counterexample): "alice" is a member of "Tech" and then her
session disconnects; teardown removes her from the group's member list, so
membership does not persist across disconnect as the claim states. -/
theorem membership_persistence_counterexample :
    "alice" ∉ (lookupD (teardown ⟨[("alice", 1), ("bob", 2)],
        [("Tech", ["alice", "bob"])]⟩ (some "alice")).1.groups "Tech").getD [] ∧
    (teardown ⟨[("alice", 1), ("bob", 2)], [("Tech", ["alice", "bob"])]⟩
        (some "alice")).1.groups = [("Tech", ["bob"])] := by
  decide

/-- Claim C7 (amended): disconnect-cleanup removes the name from every
group's member list, so group membership does not persist across
disconnect; a group message simply skips any member name not in the online
map — every frame it produces is a `RECV_GROUP`, never an error. -/
theorem membership_not_persistent (st : ServerState) (u : String)
    (sess : Session) (g text : String)
    (hnd : ∀ p ∈ st.groups, (p.2 : List String).Nodup) :
    (∀ p ∈ (teardown st (some u)).1.groups, u ∉ p.2) ∧
    (∀ s f, (s, f) ∈ (step st sess (Command.msgGroup g text)).outputs →
        f.command = "RECV_GROUP") := by
  constructor
  · intro p hp
    simp only [teardown, List.mem_map] at hp
    obtain ⟨q, hq, he⟩ := hp
    rw [← he]
    exact not_mem_removeFirst q.2 u (hnd q hq)
  · intro s f hf
    rcases hus : sess.username with _ | u'
    · simp [step, hus, skipStep] at hf
    · by_cases hm : u' ∈ (lookupD st.groups g).getD []
      · rw [step_msgGroup_member st sess u' g text hus hm] at hf
        obtain ⟨m, _, he⟩ := List.mem_filterMap.mp hf
        rcases hx : lookupD st.clients m with _ | sm
        · rw [hx] at he
          exact Option.noConfusion he
        · rw [hx] at he
          simp only [Option.map_some'] at he
          have : recvGroupFrame u' g text = f := congrArg Prod.snd (Option.some.inj he)
          rw [← this]
          rfl
      · simp [step, hus, hm] at hf

theorem membership_not_persistent_witness :
    (∀ p ∈ (ServerState.mk [("alice", 1), ("bob", 2)]
        [("Tech", ["alice", "bob"])]).groups, (p.2 : List String).Nodup) ∧
    ((∀ p ∈ (teardown ⟨[("alice", 1), ("bob", 2)], [("Tech", ["alice", "bob"])]⟩
          (some "alice")).1.groups, "alice" ∉ p.2) ∧
      (∀ s f, (s, f) ∈ (step ⟨[("alice", 1), ("bob", 2)], [("Tech", ["alice", "bob"])]⟩
          ⟨2, some "bob"⟩ (Command.msgGroup "Tech" "yo")).outputs →
        f.command = "RECV_GROUP")) :=
  ⟨by decide,
    membership_not_persistent ⟨[("alice", 1), ("bob", 2)], [("Tech", ["alice", "bob"])]⟩
      "alice" ⟨2, some "bob"⟩ "Tech" "yo" (by decide)⟩

/-- Claim C9 (counterexample): a broadcast during which the write to
"bob"'s socket (2) fails leaves the registry untouched: bob is still
registered afterwards, so the failing session is not torn down as the
claim states. -/
theorem broadcast_failure_counterexample :
    (broadcastWithFailures (fun s => s == 2) ⟨[("alice", 1), ("bob", 2)], []⟩
        (userListFrame ⟨[("alice", 1), ("bob", 2)], []⟩)).state =
      (⟨[("alice", 1), ("bob", 2)], []⟩ : ServerState) ∧
    2 ∈ (broadcastWithFailures (fun s => s == 2) ⟨[("alice", 1), ("bob", 2)], []⟩
        (userListFrame ⟨[("alice", 1), ("bob", 2)], []⟩)).failed ∧
    lookupD (broadcastWithFailures (fun s => s == 2) ⟨[("alice", 1), ("bob", 2)], []⟩
        (userListFrame ⟨[("alice", 1), ("bob", 2)], []⟩)).state.clients "bob" = some 2 := by
  decide

/-- Claim C9 (amended): a failing write during a broadcast is caught and
logged per target: every other online session still receives the frame
exactly once and no retry occurs, but the failing session is not torn
down — the registry is unchanged and the failing session stays registered
(its teardown happens only when its own connection loop ends). -/
theorem broadcast_failure_isolation (bad : Nat → Bool) (st : ServerState)
    (f : Frame) (hval : (st.clients.map Prod.snd).Nodup) :
    (broadcastWithFailures bad st f).state = st ∧
    (∀ n s, lookupD st.clients n = some s → bad s = false →
        countOcc (s, f) (broadcastWithFailures bad st f).delivered = 1) ∧
    (∀ n s, lookupD st.clients n = some s → bad s = true →
        (∀ f', (s, f') ∉ (broadcastWithFailures bad st f).delivered) ∧
        lookupD (broadcastWithFailures bad st f).state.clients n = some s) := by
  refine ⟨rfl, ?_, ?_⟩
  · intro n s hn hb
    exact countOcc_delivered_one bad st.clients f s hval
      (mem_values_of_lookupD st.clients n s hn) hb
  · intro n s hn hb
    exact ⟨fun f' => not_mem_delivered_of_bad bad st.clients f f' s hb, hn⟩

theorem broadcast_failure_isolation_witness :
    ((ServerState.mk [("alice", 1), ("bob", 2), ("carol", 3)] []).clients.map
        Prod.snd).Nodup ∧
    ((broadcastWithFailures (fun s => s == 2)
          ⟨[("alice", 1), ("bob", 2), ("carol", 3)], []⟩
          (userListFrame ⟨[("alice", 1), ("bob", 2), ("carol", 3)], []⟩)).state =
        ⟨[("alice", 1), ("bob", 2), ("carol", 3)], []⟩ ∧
      (∀ n s, lookupD (ServerState.mk [("alice", 1), ("bob", 2), ("carol", 3)] []).clients n
            = some s → (fun s => s == 2) s = false →
        countOcc (s, userListFrame ⟨[("alice", 1), ("bob", 2), ("carol", 3)], []⟩)
          (broadcastWithFailures (fun s => s == 2)
            ⟨[("alice", 1), ("bob", 2), ("carol", 3)], []⟩
            (userListFrame ⟨[("alice", 1), ("bob", 2), ("carol", 3)], []⟩)).delivered = 1) ∧
      (∀ n s, lookupD (ServerState.mk [("alice", 1), ("bob", 2), ("carol", 3)] []).clients n
            = some s → (fun s => s == 2) s = true →
        (∀ f', (s, f') ∉ (broadcastWithFailures (fun s => s == 2)
            ⟨[("alice", 1), ("bob", 2), ("carol", 3)], []⟩
            (userListFrame ⟨[("alice", 1), ("bob", 2), ("carol", 3)], []⟩)).delivered) ∧
        lookupD (broadcastWithFailures (fun s => s == 2)
            ⟨[("alice", 1), ("bob", 2), ("carol", 3)], []⟩
            (userListFrame ⟨[("alice", 1), ("bob", 2), ("carol", 3)], []⟩)).state.clients n
          = some s)) :=
  ⟨by decide,
    broadcast_failure_isolation (fun s => s == 2)
      ⟨[("alice", 1), ("bob", 2), ("carol", 3)], []⟩
      (userListFrame ⟨[("alice", 1), ("bob", 2), ("carol", 3)], []⟩) (by decide)⟩

/-- Claim C10 (counterexample): on the successful-login path with one
online client, the event trace has a lock release between the registry
mutation and the snapshot (they are in different critical sections) and
contains a socket write performed while the registry lock is held. -/
theorem lock_discipline_counterexample :
    writeUnderLock 0 (loginSuccessTrace ⟨[("alice", 1)], []⟩) = true ∧
    mutateSnapshotSeparated (loginSuccessTrace ⟨[("alice", 1)], []⟩) = true := by
  decide

/-- Claim C10 (amended): for every broadcast-triggering mutation (login,
create/join, teardown) with at least one online client, the snapshot used
for the broadcast is taken in a critical section separate from the
mutation's, and the broadcast's network writes are performed while the
registry lock is held. -/
theorem lock_discipline_spec (st : ServerState) (h : st.clients ≠ []) :
    writeUnderLock 0 (loginSuccessTrace st) = true ∧
    mutateSnapshotSeparated (loginSuccessTrace st) = true ∧
    writeUnderLock 0 (groupMutationTrace st) = true ∧
    mutateSnapshotSeparated (groupMutationTrace st) = true ∧
    writeUnderLock 0 (teardownTrace st) = true ∧
    mutateSnapshotSeparated (teardownTrace st) = true := by
  rcases hc : st.clients with _ | ⟨p, cs⟩
  · exact absurd hc h
  · refine ⟨?_, ?_, ?_, ?_, ?_, ?_⟩ <;>
      simp [loginSuccessTrace, groupMutationTrace, teardownTrace,
        broadcastUserListTrace, broadcastGroupListTrace, broadcastTrace, hc,
        writeUnderLock, mutateSnapshotSeparated, relBeforeSnap]

theorem lock_discipline_spec_witness :
    (ServerState.mk [("alice", 1)] []).clients ≠ [] ∧
    (writeUnderLock 0 (loginSuccessTrace ⟨[("alice", 1)], []⟩) = true ∧
      mutateSnapshotSeparated (loginSuccessTrace ⟨[("alice", 1)], []⟩) = true ∧
      writeUnderLock 0 (groupMutationTrace ⟨[("alice", 1)], []⟩) = true ∧
      mutateSnapshotSeparated (groupMutationTrace ⟨[("alice", 1)], []⟩) = true ∧
      writeUnderLock 0 (teardownTrace ⟨[("alice", 1)], []⟩) = true ∧
      mutateSnapshotSeparated (teardownTrace ⟨[("alice", 1)], []⟩) = true) :=
  ⟨by decide, lock_discipline_spec ⟨[("alice", 1)], []⟩ (by decide)⟩

end ChatServer
